import Mathlib

/-!
A shallow embedding of the milu conversation core (src/milu/core.py and the
earlier variant src/core.py): the Record Store rows, the Message entity with
its scoped mutation buffer, the append_token generation loop with debounced
persistence, validation in Core.append, and the fake_api producer, together
with theorems settling the specification claims.
-/

/-- Status and role string constants from the source. -/
def PENDING : String := "pending"

def GENERATING : String := "generating"

def FINISHED : String := "finished"

def USER : String := "user"

def ASSISTANT : String := "assistant"

def SYSTEM : String := "system"

/-- A persisted message row in the Record Store (the prisma Message model). -/
structure MessageRecord where
  id : String
  role : Option String
  content : Option String
  parent_id : Option String
  status : Option String
  external_id : Option String
deriving Repr, DecidableEq

/-- A partial update (the MessageUpdateInput dict): a field is `some v` when
the key is present in the dict, and the written value may itself be null for
a nullable column. -/
structure MessageUpdateInput where
  content : Option (Option String) := none
  status : Option (Option String) := none
  external_id : Option (Option String) := none
  parent_id : Option (Option String) := none
deriving Repr, DecidableEq

/-- The Record Store: the rows, in creation order. -/
abbrev Store := List MessageRecord

/-- find_unique by id. -/
def findUnique (s : Store) (i : String) : Option MessageRecord :=
  List.find? (fun r => r.id = i) s

/-- Apply a partial update to a row (prisma update semantics: only the keys
present in the dict are written). -/
def applyUpdate (r : MessageRecord) (d : MessageUpdateInput) : MessageRecord :=
  { r with
    content := d.content.getD r.content
    status := d.status.getD r.status
    external_id := d.external_id.getD r.external_id
    parent_id := d.parent_id.getD r.parent_id }

/-- prisma update: apply the partial update to the row with the given id. -/
def storeUpdate (s : Store) (i : String) (d : MessageUpdateInput) : Store :=
  s.map (fun r => if r.id = i then applyUpdate r d else r)

namespace Milu

/-- The in-memory Message entity of src/milu/core.py: the prisma_message
projection and the mutation buffer (data is none when no scope is open). -/
structure Message where
  prisma_message : MessageRecord
  data : Option MessageUpdateInput
deriving Repr, DecidableEq

/-- Message update helper: write the update to the store, then refresh the
projection from the store (find_unique), keeping the old projection when the
row is not found. -/
def Message.update_async (m : Message) (d : MessageUpdateInput) (s : Store) :
    Message × Store :=
  let s2 := storeUpdate s m.prisma_message.id d
  match findUnique s2 m.prisma_message.id with
  | some r => ({ m with prisma_message := r }, s2)
  | none => (m, s2)

/-- Message scope entry: fails when a mutation scope is already open,
otherwise opens an empty buffer. -/
def Message.aenter (m : Message) : Except String Message :=
  match m.data with
  | some _ => Except.error "The message is already in the context."
  | none => Except.ok { m with data := some {} }

/-- An observable effect during a scope release: a diagnostic-sink report or
a write of buffered data to the Record Store. -/
inductive DbEvent where
  | sinkReport (e : String)
  | storeWrite (d : MessageUpdateInput)
deriving Repr, DecidableEq

/-- Message scope exit, given the exception (if any) raised inside the
scope: fails when no scope is open; otherwise reports the error to the
diagnostic sink, flushes the buffer to the store and refreshes the
projection, clears the buffer, and lets the exception propagate (the final
component of the result). -/
def Message.aexit (m : Message) (s : Store) (exc : Option String) :
    Except String (Message × Store × List DbEvent × Option String) :=
  match m.data with
  | none => Except.error "The message is not in the context."
  | some d =>
    let reports := match exc with
      | some e => [DbEvent.sinkReport e]
      | none => []
    let p := Message.update_async m d s
    Except.ok ({ p.1 with data := none }, p.2, reports ++ [DbEvent.storeWrite d], exc)

/-- Message status setter: requires an open scope; writes into the buffer
only. -/
def Message.setStatus (m : Message) (v : Option String) : Except String Message :=
  match m.data with
  | none => Except.error "The message is not in the context."
  | some d => Except.ok { m with data := some { d with status := some v } }

/-- Message external_id setter: requires an open scope; writes into the
buffer only. -/
def Message.setExternalId (m : Message) (v : String) : Except String Message :=
  match m.data with
  | none => Except.error "The message is not in the context."
  | some d => Except.ok { m with data := some { d with external_id := some (some v) } }

/-- Message parent_id setter: requires an open scope; connect writes the new
parent id into the buffer, disconnect writes null. -/
def Message.setParentId (m : Message) (v : Option String) : Except String Message :=
  match m.data with
  | none => Except.error "The message is not in the context."
  | some d => Except.ok { m with data := some { d with parent_id := some v } }

/-- One wake-up of the append_token background task: a fresh token arrives
(dbAlso tells whether an outstanding database write completed in the same
wait), or a database-write completion arrives alone. timeUp tells whether
the elapsed-time threshold test holds at that iteration. -/
inductive GenEvent where
  | tok (s : String) (dbAlso : Bool) (timeUp : Bool)
  | dbDone (timeUp : Bool)
deriving Repr, DecidableEq

/-- State of the append_token task loop: the accumulated content, the token
count, the snapshot captured by the outstanding background write (none when
no write is outstanding), the number of writes scheduled so far, and the
fragments put into the consumer queue (none is the end marker). -/
structure GenState where
  msgId : String
  store : Store
  content : String
  token_count : Nat
  pendingSnapshot : Option String
  scheduled : Nat
  consumer : List (Option String)
deriving Repr, DecidableEq

/-- The debounce test at the end of each loop iteration: when no write is
outstanding and the elapsed-time threshold holds or the token count is a
multiple of the count threshold 5, schedule a background write capturing the
current content. -/
def genCheck (timeUp : Bool) (st : GenState) : GenState :=
  if st.pendingSnapshot = none ∧ (timeUp = true ∨ st.token_count % 5 = 0) then
    { st with pendingSnapshot := some st.content, scheduled := st.scheduled + 1 }
  else st

/-- A completed background write lands its captured content snapshot in the
store. -/
def genLand (st : GenState) : GenState :=
  match st.pendingSnapshot with
  | some c =>
    { st with
      store := storeUpdate st.store st.msgId { content := some (some c) }
      pendingSnapshot := none }
  | none => st

/-- One iteration of the append_token task loop: on a token, extend the
content, bump the count and forward the fragment to the consumer queue; mark
a completed write as landed; then run the debounce test. -/
def genStep (st : GenState) (e : GenEvent) : GenState :=
  match e with
  | GenEvent.tok s dbAlso timeUp =>
    let st1 := { st with
      content := st.content ++ s
      token_count := st.token_count + 1
      consumer := st.consumer ++ [some s] }
    genCheck timeUp (if dbAlso then genLand st1 else st1)
  | GenEvent.dbDone timeUp =>
    genCheck timeUp (genLand st)

/-- The task loop over a finite wake-up trace (the loop ends when the end
marker arrives; see Message.appendTokenScope). -/
def genRun (st : GenState) (evs : List GenEvent) : GenState :=
  evs.foldl genStep st

/-- Initial task-loop state. -/
def genInit (i : String) (s : Store) : GenState :=
  { msgId := i, store := s, content := "", token_count := 0,
    pendingSnapshot := none, scheduled := 0, consumer := [] }

/-- The fragments carried by a wake-up trace, in arrival order. -/
def tokensOf (evs : List GenEvent) : List String :=
  evs.filterMap (fun e => match e with
    | GenEvent.tok s _ _ => some s
    | GenEvent.dbDone _ => none)

/-- True when the elapsed-time threshold test is false at every iteration of
the trace. -/
def genEventNoTime (e : GenEvent) : Bool :=
  match e with
  | GenEvent.tok _ _ t => !t
  | GenEvent.dbDone t => !t

/-- Concatenation of a fragment list, in order. -/
def concatList (l : List String) : String :=
  l.foldl (fun a b => a ++ b) ""

/-- Result of an append_token scope: the message and store after the final
flush, the final task-loop state, and the exception propagating out of the
scope body. -/
structure ScopeResult where
  msg : Message
  store : Store
  gen : GenState
  raised : Option String
deriving Repr, DecidableEq

/-- Message.append_token as an async context manager: the background task
processes the wake-up trace; on scope exit — normal or raised — the finally
clause pushes the end marker (the task forwards it to the consumer queue and
returns the accumulated content) and performs the final flush of that
content, after which the exception, if any, propagates. -/
def Message.appendTokenScope (m : Message) (s : Store) (evs : List GenEvent)
    (exc : Option String) : ScopeResult :=
  let g := genRun (genInit m.prisma_message.id s) evs
  let p := Message.update_async m { content := some (some g.content) } g.store
  { msg := p.1, store := p.2,
    gen := { g with consumer := g.consumer ++ [none] }, raised := exc }

/-- Options passed to Core.append. -/
structure AppendOption where
  role : String
  content : Option String := none
  external_id : Option String := none
deriving Repr, DecidableEq

/-- Row creation inside Core.append and, for an assistant message, the
scope that flushes status pending before the message is returned. -/
def coreCreate (s : Store) (parent : Option String) (opt : AppendOption)
    (fresh : String) : Except String Message × Store :=
  let row : MessageRecord :=
    { id := fresh, role := some opt.role, content := opt.content,
      parent_id := parent, status := none, external_id := opt.external_id }
  let s1 := s ++ [row]
  let m : Message := { prisma_message := row, data := none }
  if opt.role = ASSISTANT then
    match m.aenter with
    | Except.error e => (Except.error e, s1)
    | Except.ok m1 =>
      match m1.setStatus (some PENDING) with
      | Except.error e => (Except.error e, s1)
      | Except.ok m2 =>
        match m2.aexit s1 none with
        | Except.error e => (Except.error e, s1)
        | Except.ok r => (Except.ok r.1, r.2.1)
  else (Except.ok m, s1)

/-- Core.append of src/milu/core.py: validate the role/parent/content
preconditions in source order, create the row, and for an assistant message
set status pending through a mutation scope before returning. The spawned
generation task is modelled separately (the lifecycle below). The resulting
store is returned on every path; a validation failure raises before any row
is created. -/
def coreAppend (s : Store) (parent : Option String) (opt : AppendOption)
    (fresh : String) : Except String Message × Store :=
  if opt.role = SYSTEM then
    if parent ≠ none then
      (Except.error "The parent of a system message must be None.", s)
    else if opt.content = none then
      (Except.error "The content of a system message cannot be None.", s)
    else coreCreate s parent opt fresh
  else if opt.role = USER then
    if parent = none then
      (Except.error "The parent of a user message cannot be None.", s)
    else if opt.content = none then
      (Except.error "The content of a user message cannot be None.", s)
    else coreCreate s parent opt fresh
  else if opt.role = ASSISTANT then
    if parent = none then
      (Except.error "The parent of an assistant message cannot be None.", s)
    else if opt.content ≠ none then
      (Except.error "The content of an assistant message must be None.", s)
    else coreCreate s parent opt fresh
  else (Except.error "Invalid message role.", s)

/-- Modelled from the spec, for comparison with the code: a
(role, parent, content) combination satisfies the data-model invariants when
the role is one of the three and its parent/content rules hold. -/
def specValidAppend (parent : Option String) (opt : AppendOption) : Prop :=
  (opt.role = SYSTEM ∧ parent = none ∧ opt.content ≠ none) ∨
  (opt.role = USER ∧ parent ≠ none ∧ opt.content ≠ none) ∨
  (opt.role = ASSISTANT ∧ parent ≠ none ∧ opt.content = none)

instance (parent : Option String) (opt : AppendOption) :
    Decidable (specValidAppend parent opt) := by
  unfold specValidAppend
  infer_instance

/-- The intermediate states of the assistant lifecycle: Core.append followed
by the fake_api producer (outer scope, status generating set in the buffer,
the append_token scope over the given wake-up trace, status finished set in
the buffer, scope exit). none when any step fails. -/
structure LifecycleTrace where
  afterAppend : Message × Store
  afterEnter : Message
  afterGenerating : Message
  afterTokenScope : ScopeResult
  afterFinished : Message
  final : Message × Store
deriving Repr, DecidableEq

/-- Run the assistant lifecycle: Core.append on the given store, then the
fake_api producer over the given wake-up trace. -/
def lifecycle (s : Store) (pid fresh : String) (evs : List GenEvent) :
    Option LifecycleTrace :=
  match coreAppend s (some pid) { role := ASSISTANT } fresh with
  | (Except.error _, _) => none
  | (Except.ok m, s1) =>
    match m.aenter with
    | Except.error _ => none
    | Except.ok m1 =>
      match m1.setStatus (some GENERATING) with
      | Except.error _ => none
      | Except.ok m2 =>
        let r := m2.appendTokenScope s1 evs none
        match r.msg.setStatus (some FINISHED) with
        | Except.error _ => none
        | Except.ok m3 =>
          match m3.aexit r.store none with
          | Except.error _ => none
          | Except.ok q =>
            some { afterAppend := (m, s1), afterEnter := m1,
                   afterGenerating := m2, afterTokenScope := r,
                   afterFinished := m3, final := (q.1, q.2.1) }

/-- The status visible through the Message accessor at each lifecycle stage:
after append returns, after the producer opened its scope, after it set
status generating in the buffer, after the append_token scope (this is also
the value an accessor returns at any instant while fragments are being
appended, since the projection is refreshed only by a flush), after it set
status finished in the buffer, and after the outer scope exit. -/
def lifecycleStatuses (t : LifecycleTrace) : List (Option String) :=
  [t.afterAppend.1.prisma_message.status,
   t.afterEnter.prisma_message.status,
   t.afterGenerating.prisma_message.status,
   t.afterTokenScope.msg.prisma_message.status,
   t.afterFinished.prisma_message.status,
   t.final.1.prisma_message.status]

/-- The status of the persisted row at every point of the generation loop:
after each prefix of the wake-up trace, sampled from the task-loop store. -/
def genStoreStatuses (i : String) (s : Store) (evs : List GenEvent) :
    List (Option String) :=
  (List.range (evs.length + 1)).map
    (fun k => ((findUnique (genRun (genInit i s) (evs.take k)).store i).map
      (fun r => r.status)).getD none)

/-- The status of the persisted row at each lifecycle stage: after append,
before/after the token scope, and after the final scope exit. -/
def lifecyclePersistedStatuses (t : LifecycleTrace) (i : String) :
    List (Option String) :=
  [((findUnique t.afterAppend.2 i).map (fun r => r.status)).getD none,
   ((findUnique t.afterTokenScope.store i).map (fun r => r.status)).getD none,
   ((findUnique t.final.2 i).map (fun r => r.status)).getD none]

/-- Rank of a status in the state machine, for monotonicity. -/
def statusRank (v : Option String) : Nat :=
  match v with
  | none => 0
  | some s =>
    if s = PENDING then 1
    else if s = GENERATING then 2
    else if s = FINISHED then 3
    else 3

/-- A status sequence never regresses. -/
def monotoneStatuses : List (Option String) → Bool
  | [] => true
  | [_] => true
  | a :: b :: rest => decide (statusRank a ≤ statusRank b) && monotoneStatuses (b :: rest)

/-- The wake-up trace of the fake_api producer under the canonical schedule:
ten fragments, each completed background write observed together with the
next token arrival. -/
def fakeTrace : List GenEvent :=
  [GenEvent.tok "0" false false, GenEvent.tok "1" false false,
   GenEvent.tok "2" false false, GenEvent.tok "3" false false,
   GenEvent.tok "4" false false, GenEvent.tok "5" true false,
   GenEvent.tok "6" false false, GenEvent.tok "7" false false,
   GenEvent.tok "8" false false, GenEvent.tok "9" false false]

/-- Twelve fragments, the elapsed-time threshold never crossed, and the
first scheduled write observed as completed twice in a row (two loop
wake-ups) while the token count is still 5. -/
def c3TraceA : List GenEvent :=
  [GenEvent.tok "0" false false, GenEvent.tok "1" false false,
   GenEvent.tok "2" false false, GenEvent.tok "3" false false,
   GenEvent.tok "4" false false,
   GenEvent.dbDone false, GenEvent.dbDone false,
   GenEvent.tok "5" false false, GenEvent.tok "6" false false,
   GenEvent.tok "7" false false, GenEvent.tok "8" false false,
   GenEvent.tok "9" false false, GenEvent.tok "10" false false,
   GenEvent.tok "11" false false]

/-- Twelve fragments under the canonical schedule: every completed write is
observed together with the next token arrival. -/
def c3TraceB : List GenEvent :=
  [GenEvent.tok "0" false false, GenEvent.tok "1" false false,
   GenEvent.tok "2" false false, GenEvent.tok "3" false false,
   GenEvent.tok "4" false false, GenEvent.tok "5" true false,
   GenEvent.tok "6" false false, GenEvent.tok "7" false false,
   GenEvent.tok "8" false false, GenEvent.tok "9" false false,
   GenEvent.tok "10" true false, GenEvent.tok "11" false false]

/-- A sample assistant row, flushed to pending. -/
def sampleRow : MessageRecord :=
  { id := "m1", role := some ASSISTANT, content := none,
    parent_id := some "p0", status := some PENDING, external_id := none }

/-- The sample message with no scope open. -/
def sampleMsg : Message :=
  { prisma_message := sampleRow, data := none }

/-- The sample message with an open scope and an empty buffer. -/
def sampleMsgOpen : Message :=
  { prisma_message := sampleRow, data := some {} }

/-- A buffer holding a pending status mutation. -/
def sampleBuf : MessageUpdateInput :=
  { status := some (some GENERATING) }

/-- The sample message with an open scope whose buffer holds a mutation. -/
def sampleMsgBuf : Message :=
  { prisma_message := sampleRow, data := some sampleBuf }

/-- The concrete assistant lifecycle run: Core.append on the empty store,
then the fake_api producer under the canonical schedule. -/
def c6Run : Option LifecycleTrace := lifecycle [] "p0" "a0" fakeTrace

end Milu

namespace RootCore

/-- The in-memory Message entity of src/core.py: the prisma_message
projection and the set of outstanding scheduled update tasks, in schedule
order. -/
structure Message where
  prisma_message : MessageRecord
  tasks : List MessageUpdateInput
deriving Repr, DecidableEq

/-- Result of Message.await_tasks: the message and store afterwards, and the
number of Record Store operations (writes plus reads) the call performed. -/
structure AwaitResult where
  msg : Message
  store : Store
  storeOps : Nat
deriving Repr, DecidableEq

/-- Message.await_tasks of src/core.py: when no task is outstanding, do
nothing; otherwise run every outstanding update, clear the set, and refresh
the projection from the store with a single read. -/
def Message.await_tasks (m : Message) (s : Store) : AwaitResult :=
  if m.tasks.isEmpty then { msg := m, store := s, storeOps := 0 }
  else
    let s2 := m.tasks.foldl
      (fun acc d => storeUpdate acc m.prisma_message.id d) s
    match findUnique s2 m.prisma_message.id with
    | some r =>
      { msg := { prisma_message := r, tasks := [] }, store := s2,
        storeOps := m.tasks.length + 1 }
    | none =>
      { msg := { m with tasks := [] }, store := s2,
        storeOps := m.tasks.length + 1 }

end RootCore

/-- A partial update never changes the row id. -/
@[simp] theorem applyUpdate_id (r : MessageRecord) (d : MessageUpdateInput) :
    (applyUpdate r d).id = r.id := rfl

/-- find_unique after an update: the row found before, updated when its id
matches the updated one. -/
theorem findUnique_storeUpdate (s : Store) (j i : String) (d : MessageUpdateInput) :
    findUnique (storeUpdate s j d) i =
      (findUnique s i).map (fun r => if r.id = j then applyUpdate r d else r) := by
  induction s with
  | nil => rfl
  | cons r rest ih =>
    have hcons : storeUpdate (r :: rest) j d =
        (if r.id = j then applyUpdate r d else r) :: storeUpdate rest j d := rfl
    have hhead : (if r.id = j then applyUpdate r d else r).id = r.id := by
      by_cases hj : r.id = j <;> simp [hj]
    by_cases hi : r.id = i
    · have h1 : findUnique ((if r.id = j then applyUpdate r d else r) ::
          storeUpdate rest j d) i = some (if r.id = j then applyUpdate r d else r) := by
        unfold findUnique
        apply List.find?_cons_of_pos
        simp only [decide_eq_true_eq, hhead]
        exact hi
      have h2 : findUnique (r :: rest) i = some r := by
        unfold findUnique
        apply List.find?_cons_of_pos
        simp [hi]
      rw [hcons, h1, h2]
      simp
    · have h1 : findUnique ((if r.id = j then applyUpdate r d else r) ::
          storeUpdate rest j d) i = findUnique (storeUpdate rest j d) i := by
        unfold findUnique
        apply List.find?_cons_of_neg
        simp only [decide_eq_true_eq, hhead]
        exact hi
      have h2 : findUnique (r :: rest) i = findUnique rest i := by
        unfold findUnique
        apply List.find?_cons_of_neg
        simp [hi]
      rw [hcons, h1, h2, ih]

/-- Updating the row that find_unique returns. -/
theorem findUnique_storeUpdate_self {s : Store} {i : String} {r : MessageRecord}
    (d : MessageUpdateInput) (h : findUnique s i = some r) :
    findUnique (storeUpdate s i d) i = some (applyUpdate r d) := by
  have h2 : List.find? (fun q => q.id = i) s = some r := h
  have hid : r.id = i := by simpa using List.find?_some h2
  rw [findUnique_storeUpdate, h]
  simp [hid]

/-- An update never adds or removes a row. -/
theorem findUnique_storeUpdate_isSome (s : Store) (j i : String)
    (d : MessageUpdateInput) :
    (findUnique (storeUpdate s j d) i).isSome = (findUnique s i).isSome := by
  rw [findUnique_storeUpdate]
  cases findUnique s i <;> rfl

namespace Milu

/-- The debounce test does not touch the consumer queue. -/
theorem genCheck_consumer (b : Bool) (st : GenState) :
    (genCheck b st).consumer = st.consumer := by
  unfold genCheck
  split <;> rfl

/-- The debounce test does not touch the content. -/
theorem genCheck_content (b : Bool) (st : GenState) :
    (genCheck b st).content = st.content := by
  unfold genCheck
  split <;> rfl

/-- The debounce test does not touch the store. -/
theorem genCheck_store (b : Bool) (st : GenState) :
    (genCheck b st).store = st.store := by
  unfold genCheck
  split <;> rfl

/-- The debounce test does not touch the message id. -/
theorem genCheck_msgId (b : Bool) (st : GenState) :
    (genCheck b st).msgId = st.msgId := by
  unfold genCheck
  split <;> rfl

/-- A landing write does not touch the consumer queue. -/
theorem genLand_consumer (st : GenState) :
    (genLand st).consumer = st.consumer := by
  unfold genLand
  split <;> rfl

/-- A landing write does not touch the content. -/
theorem genLand_content (st : GenState) :
    (genLand st).content = st.content := by
  unfold genLand
  split <;> rfl

/-- A landing write does not touch the message id. -/
theorem genLand_msgId (st : GenState) :
    (genLand st).msgId = st.msgId := by
  unfold genLand
  split <;> rfl

/-- A landing write never adds or removes a row. -/
theorem genLand_find_isSome (st : GenState) (i : String) :
    (findUnique (genLand st).store i).isSome = (findUnique st.store i).isSome := by
  unfold genLand
  split
  · exact findUnique_storeUpdate_isSome _ _ _ _
  · rfl

/-- One loop iteration appends the arriving fragment (if any) to the
consumer queue. -/
theorem genStep_consumer (st : GenState) (e : GenEvent) :
    (genStep st e).consumer = st.consumer ++
      (match e with
       | GenEvent.tok s _ _ => [some s]
       | GenEvent.dbDone _ => []) := by
  cases e with
  | tok s dbAlso timeUp =>
    show (genCheck _ _).consumer = _
    rw [genCheck_consumer]
    cases dbAlso
    · rfl
    · rw [show (if true then genLand _ else _) = genLand _ from rfl, genLand_consumer]
  | dbDone timeUp =>
    show (genCheck _ (genLand st)).consumer = _
    rw [genCheck_consumer, genLand_consumer, List.append_nil]

/-- One loop iteration appends the arriving fragment (if any) to the
content. -/
theorem genStep_content (st : GenState) (e : GenEvent) :
    (genStep st e).content = st.content ++
      (match e with
       | GenEvent.tok s _ _ => s
       | GenEvent.dbDone _ => "") := by
  cases e with
  | tok s dbAlso timeUp =>
    show (genCheck _ _).content = _
    rw [genCheck_content]
    cases dbAlso
    · rfl
    · rw [show (if true then genLand _ else _) = genLand _ from rfl, genLand_content]
  | dbDone timeUp =>
    show (genCheck _ (genLand st)).content = _
    rw [genCheck_content, genLand_content, String.append_empty]

/-- One loop iteration keeps the message id. -/
theorem genStep_msgId (st : GenState) (e : GenEvent) :
    (genStep st e).msgId = st.msgId := by
  cases e with
  | tok s dbAlso timeUp =>
    show (genCheck _ _).msgId = _
    rw [genCheck_msgId]
    cases dbAlso
    · rfl
    · rw [show (if true then genLand _ else _) = genLand _ from rfl, genLand_msgId]
  | dbDone timeUp =>
    show (genCheck _ (genLand st)).msgId = _
    rw [genCheck_msgId, genLand_msgId]

/-- One loop iteration never adds or removes a row. -/
theorem genStep_find_isSome (st : GenState) (e : GenEvent) (i : String) :
    (findUnique (genStep st e).store i).isSome = (findUnique st.store i).isSome := by
  cases e with
  | tok s dbAlso timeUp =>
    show (findUnique (genCheck _ _).store i).isSome = _
    rw [genCheck_store]
    cases dbAlso
    · rfl
    · rw [show (if true then genLand _ else _) = genLand _ from rfl]
      exact genLand_find_isSome _ _
  | dbDone timeUp =>
    show (findUnique (genCheck _ (genLand st)).store i).isSome = _
    rw [genCheck_store]
    exact genLand_find_isSome _ _

/-- The task loop forwards exactly the arriving fragments, in order, to the
consumer queue. -/
theorem genRun_consumer (evs : List GenEvent) :
    ∀ st : GenState, (genRun st evs).consumer =
      st.consumer ++ (tokensOf evs).map some := by
  induction evs with
  | nil =>
    intro st
    simp [genRun, tokensOf]
  | cons e evs ih =>
    intro st
    show (genRun (genStep st e) evs).consumer = _
    rw [ih, genStep_consumer]
    cases e <;> simp [tokensOf, List.filterMap_cons]

/-- Folding string concatenation from any accumulator. -/
theorem foldl_append_eq (l : List String) :
    ∀ a : String, l.foldl (fun x y => x ++ y) a = a ++ concatList l := by
  induction l with
  | nil =>
    intro a
    simp [concatList, String.append_empty]
  | cons s l ih =>
    intro a
    show l.foldl _ (a ++ s) = a ++ concatList (s :: l)
    rw [ih (a ++ s)]
    have hc : concatList (s :: l) = s ++ concatList l := by
      show l.foldl _ ("" ++ s) = _
      rw [ih ("" ++ s), String.empty_append]
    rw [hc, String.append_assoc]

/-- Concatenation of a cons. -/
theorem concatList_cons (s : String) (l : List String) :
    concatList (s :: l) = s ++ concatList l := by
  show l.foldl _ ("" ++ s) = _
  rw [foldl_append_eq l ("" ++ s), String.empty_append]

/-- The task loop accumulates exactly the concatenation of the arriving
fragments, in order. -/
theorem genRun_content (evs : List GenEvent) :
    ∀ st : GenState, (genRun st evs).content =
      st.content ++ concatList (tokensOf evs) := by
  induction evs with
  | nil =>
    intro st
    simp [genRun, tokensOf, concatList, String.append_empty]
  | cons e evs ih =>
    intro st
    show (genRun (genStep st e) evs).content = _
    rw [ih, genStep_content]
    cases e with
    | tok s dbAlso timeUp =>
      rw [show tokensOf (GenEvent.tok s dbAlso timeUp :: evs) = s :: tokensOf evs from rfl,
        concatList_cons, String.append_assoc]
    | dbDone timeUp =>
      rw [String.append_empty,
        show tokensOf (GenEvent.dbDone timeUp :: evs) = tokensOf evs from rfl]

/-- The task loop keeps the message id. -/
theorem genRun_msgId (evs : List GenEvent) :
    ∀ st : GenState, (genRun st evs).msgId = st.msgId := by
  induction evs with
  | nil =>
    intro st
    rfl
  | cons e evs ih =>
    intro st
    show (genRun (genStep st e) evs).msgId = _
    rw [ih, genStep_msgId]

/-- The task loop never adds or removes a row. -/
theorem genRun_find_isSome (evs : List GenEvent) :
    ∀ (st : GenState) (i : String),
      (findUnique (genRun st evs).store i).isSome =
        (findUnique st.store i).isSome := by
  induction evs with
  | nil =>
    intro st i
    rfl
  | cons e evs ih =>
    intro st i
    show (findUnique (genRun (genStep st e) evs).store i).isSome = _
    rw [ih, genStep_find_isSome]

/-- The store after an update-and-refresh is the updated store, whether or
not the refresh finds the row. -/
theorem update_async_store (m : Message) (d : MessageUpdateInput) (s : Store) :
    (Message.update_async m d s).2 = storeUpdate s m.prisma_message.id d := by
  simp only [Message.update_async]
  split <;> rfl

/-- An update-and-refresh does not touch the mutation buffer. -/
theorem update_async_data (m : Message) (d : MessageUpdateInput) (s : Store) :
    (Message.update_async m d s).1.data = m.data := by
  simp only [Message.update_async]
  split <;> rfl

/-- The store of an append_token scope result is the generation-loop store
with the final content flushed over it. -/
theorem appendTokenScope_store (m : Message) (s : Store) (evs : List GenEvent)
    (exc : Option String) :
    (m.appendTokenScope s evs exc).store =
      storeUpdate (genRun (genInit m.prisma_message.id s) evs).store
        m.prisma_message.id
        { content := some (some (genRun (genInit m.prisma_message.id s) evs).content) } := by
  simp only [Message.appendTokenScope]
  rw [update_async_store]

/-- The consumer queue of an append_token scope result. -/
theorem appendTokenScope_consumer (m : Message) (s : Store) (evs : List GenEvent)
    (exc : Option String) :
    (m.appendTokenScope s evs exc).gen.consumer =
      (tokensOf evs).map some ++ [none] := by
  show (genRun (genInit m.prisma_message.id s) evs).consumer ++ [none] = _
  rw [genRun_consumer]
  rfl

/-- The exception raised in the body propagates out of an append_token
scope. -/
theorem appendTokenScope_raised (m : Message) (s : Store) (evs : List GenEvent)
    (exc : Option String) :
    (m.appendTokenScope s evs exc).raised = exc := rfl

/-- C1: for every generation producer that pushes a finite sequence of
fragments followed by the end marker into an assistant Message's token
channel, the fragments received by the Message's consumer, concatenated in
receipt order, equal the content persisted to the Record Store after the
producer's terminal flush. -/
theorem c1_consumer_concat_eq_persisted (m : Message) (s : Store)
    (evs : List GenEvent) (r0 : MessageRecord)
    (h : findUnique s m.prisma_message.id = some r0) :
    ∃ r1, findUnique (m.appendTokenScope s evs none).store
        m.prisma_message.id = some r1 ∧
      r1.content = some (concatList
        (((m.appendTokenScope s evs none).gen.consumer).filterMap id)) := by
  have hsome : (findUnique (genRun (genInit m.prisma_message.id s) evs).store
      m.prisma_message.id).isSome = true := by
    rw [genRun_find_isSome]
    show (findUnique s m.prisma_message.id).isSome = true
    rw [h]
    rfl
  obtain ⟨rg, hrg⟩ := Option.isSome_iff_exists.mp hsome
  have hfind := findUnique_storeUpdate_self
    ({ content := some (some (genRun (genInit m.prisma_message.id s) evs).content) }) hrg
  refine ⟨applyUpdate rg
    { content := some (some (genRun (genInit m.prisma_message.id s) evs).content) }, ?_, ?_⟩
  · rw [appendTokenScope_store]
    exact hfind
  · show some (genRun (genInit m.prisma_message.id s) evs).content = _
    rw [appendTokenScope_consumer]
    have hfm : (((tokensOf evs).map some ++ [none]).filterMap
        (id : Option String → Option String)) = tokensOf evs := by
      rw [List.filterMap_append]
      simp
    rw [hfm, genRun_content]
    rfl

/-- Witness for C1 at a concrete message, store and fragment trace. -/
theorem c1_witness :
    ∃ r1, findUnique ((sampleMsg.appendTokenScope [sampleRow]
        [GenEvent.tok "ab" false false, GenEvent.tok "c" false false] none)).store
        sampleMsg.prisma_message.id = some r1 ∧
      r1.content = some (concatList
        (((sampleMsg.appendTokenScope [sampleRow]
          [GenEvent.tok "ab" false false, GenEvent.tok "c" false false]
          none)).gen.consumer.filterMap id)) :=
  c1_consumer_concat_eq_persisted sampleMsg [sampleRow]
    [GenEvent.tok "ab" false false, GenEvent.tok "c" false false]
    sampleRow (by decide)

/-- C9: on every exit of an append_token scope — a normal exit or one caused
by an exception raised in the producer body — the end marker is pushed into
the token channel, so the consumer receives exactly the fragments in order
and then end-of-stream, and the exception (if any) still propagates. -/
theorem c9_end_marker_on_every_exit (m : Message) (s : Store)
    (evs : List GenEvent) (exc : Option String) :
    (m.appendTokenScope s evs exc).gen.consumer =
      (tokensOf evs).map some ++ [none] ∧
    (m.appendTokenScope s evs exc).raised = exc :=
  ⟨appendTokenScope_consumer m s evs exc, appendTokenScope_raised m s evs exc⟩

/-- C10: an append_token scope in which the producer pushes zero fragments
still flushes content equal to the empty string, so the assistant row's
content becomes non-null (empty) rather than remaining null. -/
theorem c10_empty_scope_flushes_empty_content (m : Message) (s : Store)
    (evs : List GenEvent) (r0 : MessageRecord)
    (h : findUnique s m.prisma_message.id = some r0)
    (hevs : tokensOf evs = []) :
    ∃ r1, findUnique (m.appendTokenScope s evs none).store
        m.prisma_message.id = some r1 ∧
      r1.content = some "" := by
  have hsome : (findUnique (genRun (genInit m.prisma_message.id s) evs).store
      m.prisma_message.id).isSome = true := by
    rw [genRun_find_isSome]
    show (findUnique s m.prisma_message.id).isSome = true
    rw [h]
    rfl
  obtain ⟨rg, hrg⟩ := Option.isSome_iff_exists.mp hsome
  have hfind := findUnique_storeUpdate_self
    ({ content := some (some (genRun (genInit m.prisma_message.id s) evs).content) }) hrg
  refine ⟨applyUpdate rg
    { content := some (some (genRun (genInit m.prisma_message.id s) evs).content) }, ?_, ?_⟩
  · rw [appendTokenScope_store]
    exact hfind
  · show some (genRun (genInit m.prisma_message.id s) evs).content = _
    rw [genRun_content, hevs]
    rfl

/-- Witness for C10: a scope with no fragments on a concrete assistant row
whose content is null. -/
theorem c10_witness :
    ∃ r1, findUnique ((sampleMsg.appendTokenScope [sampleRow] [] none)).store
        sampleMsg.prisma_message.id = some r1 ∧
      r1.content = some "" :=
  c10_empty_scope_flushes_empty_content sampleMsg [sampleRow] [] sampleRow
    (by decide) rfl

/-- C4: a mutation scope that exits with an error raised inside the scope
still flushes the buffered mutations to the Record Store, reports the error
to the diagnostic sink before the flush completes the release, and lets the
same error propagate to the caller after cleanup rather than swallowing
it. -/
theorem c4_error_exit_flushes_reports_propagates (m : Message) (s : Store)
    (d : MessageUpdateInput) (e : String) (h : m.data = some d) :
    ∃ m2 s2, m.aexit s (some e) =
      Except.ok (m2, s2, [DbEvent.sinkReport e, DbEvent.storeWrite d], some e) ∧
      s2 = storeUpdate s m.prisma_message.id d ∧
      m2.data = none := by
  refine ⟨{ (Message.update_async m d s).1 with data := none },
    (Message.update_async m d s).2, ?_, ?_, ?_⟩
  · show Message.aexit m s (some e) = _
    unfold Message.aexit
    rw [h]
    rfl
  · exact update_async_store m d s
  · rfl

/-- Witness for C4 at a concrete message, buffer and error. -/
theorem c4_witness :
    ∃ m2 s2, sampleMsgBuf.aexit [sampleRow] (some "boom") =
      Except.ok (m2, s2,
        [DbEvent.sinkReport "boom", DbEvent.storeWrite sampleBuf], some "boom") ∧
      s2 = storeUpdate [sampleRow] sampleMsgBuf.prisma_message.id sampleBuf ∧
      m2.data = none :=
  c4_error_exit_flushes_reports_propagates sampleMsgBuf [sampleRow] sampleBuf
    "boom" rfl

/-- C5: opening a second mutation scope on a Message whose scope is already
open fails with the scope-reentry error, and the open scope's buffered
mutations are untouched: a later scope exit still flushes exactly the buffer
that was there. -/
theorem c5_scope_reentry_fails_buffer_unaffected (m : Message)
    (b : MessageUpdateInput) (h : m.data = some b) :
    m.aenter = Except.error "The message is already in the context." ∧
    ∀ (s : Store) (exc : Option String),
      ∃ m2 s2 log, m.aexit s exc = Except.ok (m2, s2, log, exc) ∧
        DbEvent.storeWrite b ∈ log := by
  constructor
  · unfold Message.aenter
    rw [h]
  · intro s exc
    refine ⟨{ (Message.update_async m b s).1 with data := none },
      (Message.update_async m b s).2,
      (match exc with
        | some e => [DbEvent.sinkReport e]
        | none => []) ++ [DbEvent.storeWrite b], ?_, ?_⟩
    · show Message.aexit m s exc = _
      unfold Message.aexit
      rw [h]
    · cases exc <;> simp

/-- Witness for C5 at a concrete message with an open buffer. -/
theorem c5_witness :
    sampleMsgBuf.aenter = Except.error "The message is already in the context." ∧
    ∀ (s : Store) (exc : Option String),
      ∃ m2 s2 log, sampleMsgBuf.aexit s exc = Except.ok (m2, s2, log, exc) ∧
        DbEvent.storeWrite sampleBuf ∈ log :=
  c5_scope_reentry_fails_buffer_unaffected sampleMsgBuf sampleBuf rfl

/-- C7 counterexample: with a scope open on a message whose projected status
is pending, the status setter does not update the in-memory projection: the
accessor still returns pending, not the newly written generating, so the
projection does not reflect the new value immediately. -/
theorem c7_counterexample :
    (sampleMsgOpen.setStatus (some GENERATING)).map
      (fun m => m.prisma_message.status) = Except.ok (some PENDING) ∧
    ¬ PENDING = GENERATING := ⟨rfl, by decide⟩

/-- C7 amended: a field setter invoked while the mutation scope is open
writes the mutation into the in-memory buffer and issues no Record Store
write, but does not update the in-memory projection: the projection keeps
its pre-mutation value until the next flush refreshes it from the store. -/
theorem c7_setters_write_buffer_not_projection (m : Message)
    (d : MessageUpdateInput) (h : m.data = some d) :
    (∀ v, m.setStatus v =
      Except.ok { m with data := some { d with status := some v } }) ∧
    (∀ w, m.setExternalId w =
      Except.ok { m with data := some { d with external_id := some (some w) } }) ∧
    (∀ p, m.setParentId p =
      Except.ok { m with data := some { d with parent_id := some p } }) := by
  refine ⟨fun v => ?_, fun w => ?_, fun p => ?_⟩
  · show Message.setStatus _ _ = _
    unfold Message.setStatus
    rw [h]
  · show Message.setExternalId _ _ = _
    unfold Message.setExternalId
    rw [h]
  · show Message.setParentId _ _ = _
    unfold Message.setParentId
    rw [h]

/-- Witness for C7 at a concrete message with an open empty buffer. -/
theorem c7_witness :
    sampleMsgOpen.setStatus (some GENERATING) =
      Except.ok { prisma_message := sampleRow,
                  data := some { content := none,
                                 status := some (some GENERATING),
                                 external_id := none,
                                 parent_id := none } } :=
  (c7_setters_write_buffer_not_projection sampleMsgOpen {} rfl).1 (some GENERATING)

end Milu

namespace RootCore

/-- await_tasks on a message with no outstanding task does nothing. -/
theorem await_tasks_of_nil (m : Message) (s : Store) (h : m.tasks = []) :
    Message.await_tasks m s = { msg := m, store := s, storeOps := 0 } := by
  unfold Message.await_tasks
  rw [h]
  rfl

/-- After any await_tasks call, the outstanding-task set is empty. -/
theorem await_tasks_clears (m : Message) (s : Store) :
    (Message.await_tasks m s).msg.tasks = [] := by
  simp only [Message.await_tasks]
  split
  · next hemp => exact List.isEmpty_iff.mp (by simpa using hemp)
  · split <;> rfl

/-- C8: calling the await-outstanding operation twice in succession with no
new mutation scheduled in between performs zero store writes or reads during
the second call and leaves the in-memory projection and the store exactly as
the first call produced them. -/
theorem c8_await_tasks_idempotent (m : Message) (s : Store) :
    Message.await_tasks (Message.await_tasks m s).msg
        (Message.await_tasks m s).store =
      { msg := (Message.await_tasks m s).msg,
        store := (Message.await_tasks m s).store, storeOps := 0 } :=
  await_tasks_of_nil _ _ (await_tasks_clears m s)

end RootCore

namespace Milu

/-- C3 counterexample: a wake-up schedule pushing 12 fragments with the
count threshold 5 and the elapsed-time threshold never crossed in which the
loop observes the first write's completion twice while the token count is
still 5, so it schedules 3 background writes, not exactly 2. -/
theorem c3_counterexample :
    (tokensOf c3TraceA).length = 12 ∧
    c3TraceA.all genEventNoTime = true ∧
    (genRun (genInit "m1" []) c3TraceA).scheduled = 3 := by decide

/-- C3 amended: with the count threshold 5 and the time threshold never
crossed, pushing 12 fragments schedules exactly 2 background writes under
the canonical schedule in which every write completion is observed together
with a later token arrival; the count of scheduled writes is not 2 for every
schedule, because the loop re-runs the debounce test on each wake-up with an
unchanged token count. -/
theorem c3_two_writes_under_canonical_schedule :
    (tokensOf c3TraceB).length = 12 ∧
    c3TraceB.all genEventNoTime = true ∧
    (genRun (genInit "m1" []) c3TraceB).scheduled = 2 := by decide

/-- C6 counterexample: in the concrete assistant lifecycle the producer
pushes ten fragments, yet the generating status is never observable through
the Message accessor nor in the persisted row: the mutation scope buffers it
and overwrites it with finished before any flush. -/
theorem c6_counterexample :
    (c6Run.map (fun t => (lifecycleStatuses t).contains (some GENERATING)))
        = some false ∧
    (c6Run.map (fun t =>
        (lifecyclePersistedStatuses t "a0").contains (some GENERATING)))
          = some false ∧
    (tokensOf fakeTrace).length = 10 := by decide

end Milu

/-- Finding a freshly created row appended to a store that does not hold its
id. -/
theorem findUnique_append_fresh (s : Store) (row : MessageRecord)
    (h : findUnique s row.id = none) :
    findUnique (s ++ [row]) row.id = some row := by
  unfold findUnique at *
  rw [List.find?_append, h]
  simp

namespace Milu

/-- coreCreate for a non-assistant role: the row is created as given and the
message returned with no scope open. -/
theorem coreCreate_not_assistant (s : Store) (parent : Option String)
    (opt : AppendOption) (fresh : String) (hrole : ¬ opt.role = ASSISTANT) :
    coreCreate s parent opt fresh =
      (Except.ok { prisma_message :=
                     { id := fresh, role := some opt.role,
                       content := opt.content, parent_id := parent,
                       status := none, external_id := opt.external_id },
                   data := none },
        s ++ [{ id := fresh, role := some opt.role, content := opt.content,
                parent_id := parent, status := none,
                external_id := opt.external_id }]) := by
  simp only [coreCreate]
  rw [if_neg hrole]

/-- coreCreate for the assistant role: the row is created, then the pending
status is flushed through a mutation scope, and the refreshed message is
returned. -/
theorem coreCreate_assistant (s : Store) (parent : Option String)
    (opt : AppendOption) (fresh : String) (hrole : opt.role = ASSISTANT)
    (hfresh : findUnique s fresh = none) :
    coreCreate s parent opt fresh =
      (Except.ok { prisma_message :=
                     { id := fresh, role := some opt.role,
                       content := opt.content, parent_id := parent,
                       status := some PENDING,
                       external_id := opt.external_id },
                   data := none },
        storeUpdate
          (s ++ [{ id := fresh, role := some opt.role, content := opt.content,
                   parent_id := parent, status := none,
                   external_id := opt.external_id }])
          fresh { status := some (some PENDING) }) := by
  have hs1 : findUnique
      (s ++ [{ id := fresh, role := some opt.role, content := opt.content,
               parent_id := parent, status := none,
               external_id := opt.external_id }]) fresh =
      some { id := fresh, role := some opt.role, content := opt.content,
             parent_id := parent, status := none,
             external_id := opt.external_id } :=
    findUnique_append_fresh s _ hfresh
  have hup := findUnique_storeUpdate_self
    ({ status := some (some PENDING) } : MessageUpdateInput) hs1
  simp only [coreCreate]
  rw [if_pos hrole]
  simp only [Message.aenter, Message.setStatus, Message.aexit,
    Message.update_async]
  rw [hup]
  rfl

/-- C2: for a parent and AppendOption satisfying the role/parent/content
invariants, append succeeds and returns a Message whose role, content,
parent linkage and external id match the inputs, with the row persisted; for
a combination violating an invariant, append fails with a validation error
naming the violated rule and creates no row in the store. -/
theorem c2_append_validates (s : Store) (parent : Option String)
    (opt : AppendOption) (fresh : String)
    (hfresh : findUnique s fresh = none) :
    (specValidAppend parent opt →
      ∃ m s2, coreAppend s parent opt fresh = (Except.ok m, s2) ∧
        m.prisma_message.id = fresh ∧
        m.prisma_message.role = some opt.role ∧
        m.prisma_message.content = opt.content ∧
        m.prisma_message.parent_id = parent ∧
        m.prisma_message.external_id = opt.external_id ∧
        findUnique s2 fresh = some m.prisma_message) ∧
    (¬ specValidAppend parent opt →
      ∃ e, coreAppend s parent opt fresh = (Except.error e, s) ∧
        (e = "The parent of a system message must be None." ∨
         e = "The content of a system message cannot be None." ∨
         e = "The parent of a user message cannot be None." ∨
         e = "The content of a user message cannot be None." ∨
         e = "The parent of an assistant message cannot be None." ∨
         e = "The content of an assistant message must be None." ∨
         e = "Invalid message role.")) := by
  constructor
  · intro hv
    rcases hv with ⟨hr, hp, hc⟩ | ⟨hr, hp, hc⟩ | ⟨hr, hp, hc⟩
    · have hres : coreAppend s parent opt fresh = coreCreate s parent opt fresh := by
        unfold coreAppend
        rw [if_pos hr, if_neg (by simp [hp]), if_neg hc]
      rw [hres, coreCreate_not_assistant s parent opt fresh (by rw [hr]; decide)]
      refine ⟨_, _, rfl, rfl, rfl, rfl, rfl, rfl, ?_⟩
      exact findUnique_append_fresh s _ hfresh
    · have hres : coreAppend s parent opt fresh = coreCreate s parent opt fresh := by
        unfold coreAppend
        rw [if_neg (by rw [hr]; decide), if_pos hr, if_neg hp, if_neg hc]
      rw [hres, coreCreate_not_assistant s parent opt fresh (by rw [hr]; decide)]
      refine ⟨_, _, rfl, rfl, rfl, rfl, rfl, rfl, ?_⟩
      exact findUnique_append_fresh s _ hfresh
    · have hres : coreAppend s parent opt fresh = coreCreate s parent opt fresh := by
        unfold coreAppend
        rw [if_neg (by rw [hr]; decide), if_neg (by rw [hr]; decide),
          if_pos hr, if_neg hp, if_neg (by simp [hc])]
      rw [hres, coreCreate_assistant s parent opt fresh hr hfresh]
      refine ⟨_, _, rfl, rfl, rfl, rfl, rfl, rfl, ?_⟩
      have hs1 : findUnique
          (s ++ [{ id := fresh, role := some opt.role, content := opt.content,
                   parent_id := parent, status := none,
                   external_id := opt.external_id }]) fresh =
          some { id := fresh, role := some opt.role, content := opt.content,
                 parent_id := parent, status := none,
                 external_id := opt.external_id } :=
        findUnique_append_fresh s _ hfresh
      exact findUnique_storeUpdate_self _ hs1
  · intro hninv
    by_cases hsys : opt.role = SYSTEM
    · by_cases hp : parent = none
      · by_cases hc : opt.content = none
        · refine ⟨"The content of a system message cannot be None.", ?_, ?_⟩
          · unfold coreAppend
            rw [if_pos hsys, if_neg (by simp [hp]), if_pos hc]
          · right; left; rfl
        · exact absurd (Or.inl ⟨hsys, hp, hc⟩) hninv
      · refine ⟨"The parent of a system message must be None.", ?_, ?_⟩
        · unfold coreAppend
          rw [if_pos hsys, if_pos hp]
        · left; rfl
    · by_cases huser : opt.role = USER
      · by_cases hp : parent = none
        · refine ⟨"The parent of a user message cannot be None.", ?_, ?_⟩
          · unfold coreAppend
            rw [if_neg hsys, if_pos huser, if_pos hp]
          · right; right; left; rfl
        · by_cases hc : opt.content = none
          · refine ⟨"The content of a user message cannot be None.", ?_, ?_⟩
            · unfold coreAppend
              rw [if_neg hsys, if_pos huser, if_neg hp, if_pos hc]
            · right; right; right; left; rfl
          · exact absurd (Or.inr (Or.inl ⟨huser, hp, hc⟩)) hninv
      · by_cases hasst : opt.role = ASSISTANT
        · by_cases hp : parent = none
          · refine ⟨"The parent of an assistant message cannot be None.", ?_, ?_⟩
            · unfold coreAppend
              rw [if_neg hsys, if_neg huser, if_pos hasst, if_pos hp]
            · right; right; right; right; left; rfl
          · by_cases hc : opt.content = none
            · exact absurd (Or.inr (Or.inr ⟨hasst, hp, hc⟩)) hninv
            · refine ⟨"The content of an assistant message must be None.", ?_, ?_⟩
              · unfold coreAppend
                rw [if_neg hsys, if_neg huser, if_pos hasst, if_neg hp,
                  if_pos hc]
              · right; right; right; right; right; left; rfl
        · refine ⟨"Invalid message role.", ?_, ?_⟩
          · unfold coreAppend
            rw [if_neg hsys, if_neg huser, if_neg hasst]
          · right; right; right; right; right; right; rfl

/-- Witness for C2 at a concrete valid system-message append on the empty
store. -/
theorem c2_witness :
    ∃ m s2, coreAppend [] none
        { role := SYSTEM, content := some "hello" } "m9" = (Except.ok m, s2) ∧
      m.prisma_message.id = "m9" ∧
      m.prisma_message.role = some SYSTEM ∧
      m.prisma_message.content = some "hello" ∧
      m.prisma_message.parent_id = none ∧
      m.prisma_message.external_id = none ∧
      findUnique s2 "m9" = some m.prisma_message :=
  (c2_append_validates [] none { role := SYSTEM, content := some "hello" }
    "m9" rfl).1 (Or.inl ⟨rfl, rfl, by decide⟩)

end Milu

/-- An update whose dict does not hold the status key never changes the
status seen through find_unique, at any id. -/
theorem findUnique_storeUpdate_map_status (s : Store) (j i : String)
    (d : MessageUpdateInput) (hd : d.status = none) :
    (findUnique (storeUpdate s j d) i).map (fun r => r.status) =
      (findUnique s i).map (fun r => r.status) := by
  rw [findUnique_storeUpdate]
  cases findUnique s i with
  | none => rfl
  | some r => by_cases hj : r.id = j <;> simp [hj, applyUpdate, hd]

namespace Milu

/-- A landing background write carries only the content key, so it never
changes the persisted status. -/
theorem genLand_find_status (st : GenState) (i : String) :
    (findUnique (genLand st).store i).map (fun r => r.status) =
      (findUnique st.store i).map (fun r => r.status) := by
  unfold genLand
  split
  · exact findUnique_storeUpdate_map_status _ _ _ _ rfl
  · rfl

/-- One loop iteration never changes the persisted status. -/
theorem genStep_find_status (st : GenState) (e : GenEvent) (i : String) :
    (findUnique (genStep st e).store i).map (fun r => r.status) =
      (findUnique st.store i).map (fun r => r.status) := by
  cases e with
  | tok s dbAlso timeUp =>
    show (findUnique (genCheck _ _).store i).map _ = _
    rw [genCheck_store]
    cases dbAlso
    · rfl
    · rw [show (if true then genLand _ else _) = genLand _ from rfl]
      exact genLand_find_status _ _
  | dbDone timeUp =>
    show (findUnique (genCheck _ (genLand st)).store i).map _ = _
    rw [genCheck_store]
    exact genLand_find_status _ _

/-- The task loop never changes the persisted status of any row: its writes
carry only the content key. -/
theorem genRun_find_status (evs : List GenEvent) :
    ∀ (st : GenState) (i : String),
      (findUnique (genRun st evs).store i).map (fun r => r.status) =
        (findUnique st.store i).map (fun r => r.status) := by
  induction evs with
  | nil =>
    intro st i
    rfl
  | cons e evs ih =>
    intro st i
    show (findUnique (genRun (genStep st e) evs).store i).map _ = _
    rw [ih, genStep_find_status]

/-- An update-and-refresh on a message whose row is in the store: the
projection is refreshed to the updated row and the store holds the update. -/
theorem update_async_of_find {m : Message} {s : Store} {r : MessageRecord}
    (d : MessageUpdateInput) (h : findUnique s m.prisma_message.id = some r) :
    Message.update_async m d s =
      ({ m with prisma_message := applyUpdate r d },
       storeUpdate s m.prisma_message.id d) := by
  simp only [Message.update_async]
  rw [findUnique_storeUpdate_self d h]

/-- Scope exit on a message whose buffer is open and whose row is in the
store: the buffer is flushed, the projection refreshed, the buffer cleared,
and the exception propagates. -/
theorem aexit_of_find {m : Message} {s : Store} {b : MessageUpdateInput}
    {r : MessageRecord} (exc : Option String) (hb : m.data = some b)
    (h : findUnique s m.prisma_message.id = some r) :
    m.aexit s exc = Except.ok
      ({ prisma_message := applyUpdate r b, data := none },
       storeUpdate s m.prisma_message.id b,
       (match exc with
        | some e => [DbEvent.sinkReport e]
        | none => []) ++ [DbEvent.storeWrite b], exc) := by
  unfold Message.aexit
  rw [hb]
  show Except.ok ({ (Message.update_async m b s).1 with data := none },
    (Message.update_async m b s).2, _, exc) = _
  rw [update_async_of_find b h]

/-- Core.append of an assistant option on a store that does not hold the
fresh id: the row is created, status pending is flushed, and the refreshed
message is returned. -/
theorem coreAppend_assistant (s : Store) (pid fresh : String)
    (hfresh : findUnique s fresh = none) :
    coreAppend s (some pid) { role := ASSISTANT } fresh =
      (Except.ok { prisma_message :=
                     { id := fresh, role := some ASSISTANT, content := none,
                       parent_id := some pid, status := some PENDING,
                       external_id := none },
                   data := none },
        storeUpdate
          (s ++ [{ id := fresh, role := some ASSISTANT, content := none,
                   parent_id := some pid, status := none,
                   external_id := none }])
          fresh { status := some (some PENDING) }) := by
  have hres : coreAppend s (some pid) ({ role := ASSISTANT } : AppendOption) fresh =
      coreCreate s (some pid) { role := ASSISTANT } fresh := by
    unfold coreAppend
    rw [if_neg (by decide), if_neg (by decide), if_pos rfl,
      if_neg (by simp), if_neg (by simp)]
  rw [hres, coreCreate_assistant s (some pid) { role := ASSISTANT } fresh rfl hfresh]

end Milu

namespace Milu

/-- C6 amended: for every starting store in which the fresh id is unused,
every parent id and every wake-up schedule of the generation loop, the
statuses observable through the Message accessor and in the persisted row
during the assistant lifecycle progress monotonically from pending to
finished and never regress, but the generating status is skipped: the
producer writes it only into the mutation buffer, the append_token writes
carry content only (the persisted row stays pending at every point of the
loop), and the buffered generating value is overwritten by finished before
the scope's single flush, so generating is observable in neither place. -/
theorem c6_status_monotone_generating_skipped (s : Store) (pid fresh : String)
    (evs : List GenEvent) (hfresh : findUnique s fresh = none) :
    ∃ t, lifecycle s pid fresh evs = some t ∧
      lifecycleStatuses t =
        [some PENDING, some PENDING, some PENDING, some PENDING,
         some PENDING, some FINISHED] ∧
      monotoneStatuses (lifecycleStatuses t) = true ∧
      (lifecycleStatuses t).getLast? = some (some FINISHED) ∧
      (lifecycleStatuses t).contains (some GENERATING) = false ∧
      lifecyclePersistedStatuses t fresh =
        [some PENDING, some PENDING, some FINISHED] ∧
      monotoneStatuses (lifecyclePersistedStatuses t fresh) = true ∧
      (lifecyclePersistedStatuses t fresh).contains (some GENERATING) = false ∧
      (genStoreStatuses fresh t.afterAppend.2 evs).all
        (fun v => v == some PENDING) = true := by
  set row0 : MessageRecord :=
    { id := fresh, role := some ASSISTANT, content := none,
      parent_id := some pid, status := none, external_id := none } with hrow0
  set rowP : MessageRecord :=
    { id := fresh, role := some ASSISTANT, content := none,
      parent_id := some pid, status := some PENDING,
      external_id := none } with hrowP
  set s1 : Store := storeUpdate (s ++ [row0]) fresh
    { status := some (some PENDING) } with hs1
  set bufG : MessageUpdateInput :=
    { content := none, status := some (some GENERATING),
      external_id := none, parent_id := none } with hbufG
  set m2 : Message := { prisma_message := rowP, data := some bufG } with hm2
  set g : GenState := genRun (genInit fresh s1) evs with hg
  set dcon : MessageUpdateInput :=
    { content := some (some g.content), status := none,
      external_id := none, parent_id := none } with hdcon
  set bufF : MessageUpdateInput :=
    { content := none, status := some (some FINISHED),
      external_id := none, parent_id := none } with hbufF
  have happ : coreAppend s (some pid) { role := ASSISTANT } fresh =
      (Except.ok { prisma_message := rowP, data := none }, s1) := by
    rw [hrowP, hs1, hrow0]
    exact coreAppend_assistant s pid fresh hfresh
  have hfind1 : findUnique s1 fresh = some rowP := by
    rw [hs1, hrowP, hrow0]
    exact findUnique_storeUpdate_self _ (findUnique_append_fresh s _ hfresh)
  have hgsome : (findUnique g.store fresh).isSome = true := by
    rw [hg, genRun_find_isSome]
    show (findUnique s1 fresh).isSome = true
    rw [hfind1]
    rfl
  obtain ⟨rg, hrg⟩ := Option.isSome_iff_exists.mp hgsome
  have hrgid : rg.id = fresh := by
    have h2 : List.find? (fun q => q.id = fresh) g.store = some rg := hrg
    simpa using List.find?_some h2
  have hrgstat : rg.status = some PENDING := by
    have hst : (findUnique (genRun (genInit fresh s1) evs).store fresh).map
        (fun r => r.status) = (findUnique s1 fresh).map (fun r => r.status) :=
      genRun_find_status evs (genInit fresh s1) fresh
    rw [← hg, hrg, hfind1] at hst
    exact Option.some.inj hst
  have hmsg : (m2.appendTokenScope s1 evs none).msg =
      { prisma_message := applyUpdate rg dcon, data := some bufG } := by
    show (Message.update_async m2 dcon g.store).1 = _
    rw [update_async_of_find dcon
      (show findUnique g.store m2.prisma_message.id = some rg from hrg)]
  have hstore : (m2.appendTokenScope s1 evs none).store =
      storeUpdate g.store fresh dcon :=
    appendTokenScope_store m2 s1 evs none
  have hfind2 : findUnique (m2.appendTokenScope s1 evs none).store fresh =
      some (applyUpdate rg dcon) := by
    rw [hstore]
    exact findUnique_storeUpdate_self dcon hrg
  have hm3 : (m2.appendTokenScope s1 evs none).msg.setStatus (some FINISHED) =
      Except.ok { prisma_message := applyUpdate rg dcon,
                  data := some bufF } := by
    rw [hmsg]
    rfl
  have hfind3 : findUnique (m2.appendTokenScope s1 evs none).store
      (applyUpdate rg dcon).id = some (applyUpdate rg dcon) := by
    show findUnique (m2.appendTokenScope s1 evs none).store rg.id = _
    rw [hrgid]
    exact hfind2
  have haexit : ({ prisma_message := applyUpdate rg dcon,
                   data := some bufF } : Message).aexit
      (m2.appendTokenScope s1 evs none).store none =
      Except.ok ({ prisma_message := applyUpdate (applyUpdate rg dcon) bufF,
                   data := none },
        storeUpdate (m2.appendTokenScope s1 evs none).store
          (applyUpdate rg dcon).id bufF,
        [DbEvent.storeWrite bufF], none) :=
    aexit_of_find none rfl hfind3
  set texp : LifecycleTrace :=
    { afterAppend := ({ prisma_message := rowP, data := none }, s1),
      afterEnter := { prisma_message := rowP, data := some {} },
      afterGenerating := m2,
      afterTokenScope := m2.appendTokenScope s1 evs none,
      afterFinished := { prisma_message := applyUpdate rg dcon,
                         data := some bufF },
      final := ({ prisma_message := applyUpdate (applyUpdate rg dcon) bufF,
                  data := none },
                storeUpdate (m2.appendTokenScope s1 evs none).store
                  (applyUpdate rg dcon).id bufF) } with htexp
  have hlife : lifecycle s pid fresh evs = some texp := by
    unfold lifecycle
    rw [happ]
    show (match (m2.appendTokenScope s1 evs none).msg.setStatus
            (some FINISHED) with
          | Except.error _ => none
          | Except.ok m3 =>
            match m3.aexit (m2.appendTokenScope s1 evs none).store none with
            | Except.error _ => none
            | Except.ok q =>
              some { afterAppend := ({ prisma_message := rowP, data := none }, s1),
                     afterEnter := { prisma_message := rowP, data := some {} },
                     afterGenerating := m2,
                     afterTokenScope := m2.appendTokenScope s1 evs none,
                     afterFinished := m3,
                     final := (q.1, q.2.1) }) = some texp
    rw [hm3]
    show (match ({ prisma_message := applyUpdate rg dcon,
                   data := some bufF } : Message).aexit
            (m2.appendTokenScope s1 evs none).store none with
          | Except.error _ => none
          | Except.ok q =>
            some { afterAppend := ({ prisma_message := rowP, data := none }, s1),
                   afterEnter := { prisma_message := rowP, data := some {} },
                   afterGenerating := m2,
                   afterTokenScope := m2.appendTokenScope s1 evs none,
                   afterFinished := { prisma_message := applyUpdate rg dcon,
                                      data := some bufF },
                   final := (q.1, q.2.1) }) = some texp
    rw [haexit]
  have hsl : lifecycleStatuses texp =
      [some PENDING, some PENDING, some PENDING, some PENDING,
       some PENDING, some FINISHED] := by
    show [some PENDING, some PENDING, some PENDING,
      (m2.appendTokenScope s1 evs none).msg.prisma_message.status,
      rg.status, some FINISHED] = _
    rw [hmsg]
    show [some PENDING, some PENDING, some PENDING, rg.status, rg.status,
      some FINISHED] = _
    rw [hrgstat]
  have hfind4 : findUnique
      (storeUpdate (m2.appendTokenScope s1 evs none).store
        (applyUpdate rg dcon).id bufF) fresh =
      some (applyUpdate (applyUpdate rg dcon) bufF) := by
    show findUnique
      (storeUpdate (m2.appendTokenScope s1 evs none).store rg.id bufF) fresh = _
    rw [hrgid]
    exact findUnique_storeUpdate_self bufF hfind2
  have hpl : lifecyclePersistedStatuses texp fresh =
      [some PENDING, some PENDING, some FINISHED] := by
    show [((findUnique s1 fresh).map (fun r => r.status)).getD none,
      ((findUnique (m2.appendTokenScope s1 evs none).store fresh).map
        (fun r => r.status)).getD none,
      ((findUnique
        (storeUpdate (m2.appendTokenScope s1 evs none).store
          (applyUpdate rg dcon).id bufF) fresh).map
        (fun r => r.status)).getD none] = _
    rw [hfind1, hfind2, hfind4]
    show [some PENDING, rg.status, some FINISHED] = _
    rw [hrgstat]
  have hgl : (genStoreStatuses fresh s1 evs).all
      (fun v => v == some PENDING) = true := by
    rw [List.all_eq_true]
    intro v hv
    simp only [genStoreStatuses, List.mem_map] at hv
    obtain ⟨k, hk, hkv⟩ := hv
    subst hkv
    have hst : (findUnique (genRun (genInit fresh s1) (evs.take k)).store
        fresh).map (fun r => r.status) =
        (findUnique s1 fresh).map (fun r => r.status) :=
      genRun_find_status (evs.take k) (genInit fresh s1) fresh
    rw [hfind1] at hst
    rw [hst]
    rfl
  refine ⟨texp, hlife, hsl, ?_, ?_, ?_, hpl, ?_, ?_, ?_⟩
  · rw [hsl]
    decide
  · rw [hsl]
    decide
  · rw [hsl]
    decide
  · rw [hpl]
    decide
  · rw [hpl]
    decide
  · exact hgl

/-- Witness for C6 at the concrete lifecycle on the empty store with the
fake_api trace. -/
theorem c6_witness :
    ∃ t, lifecycle [] "p0" "a0" fakeTrace = some t ∧
      lifecycleStatuses t =
        [some PENDING, some PENDING, some PENDING, some PENDING,
         some PENDING, some FINISHED] ∧
      monotoneStatuses (lifecycleStatuses t) = true ∧
      (lifecycleStatuses t).getLast? = some (some FINISHED) ∧
      (lifecycleStatuses t).contains (some GENERATING) = false ∧
      lifecyclePersistedStatuses t "a0" =
        [some PENDING, some PENDING, some FINISHED] ∧
      monotoneStatuses (lifecyclePersistedStatuses t "a0") = true ∧
      (lifecyclePersistedStatuses t "a0").contains (some GENERATING) = false ∧
      (genStoreStatuses "a0" t.afterAppend.2 fakeTrace).all
        (fun v => v == some PENDING) = true :=
  c6_status_monotone_generating_skipped [] "p0" "a0" fakeTrace rfl

end Milu
